import Mathlib

/-!
Verification of the invoice/billing computation engine and the daily-extras
admission rule of the bc-food-management repository.

The definitions below are a shallow embedding of the client data layer in
`src/js/database.js` (the primary document of that file, the variant with
advance payments) and of the extras save path in the Daily Extras module
(`src/unnamed/part_001`, `Extras.save`).  Currency values are modelled as
rationals (JS numbers used as decimal currency).  Dates are modelled as
structured calendar dates (year, 0-based month index as in JS `getMonth`,
day of month): every date handled by the core is an ISO `YYYY-MM-DD`
calendar date with no time component, so JS `new Date(d).getFullYear()` /
`.getMonth()` / `.getDate()` and the `toISOString` prefix comparison in
`matchDate` reduce to the structural accessors and structural equality used
here (timezone skew, which the spec flags as out of the canonical model,
is not modelled).

The repository snapshot does not contain the server route files
(`server/routes/customers.js`, `routes/extras.js`, `routes/advance.js`);
only their callers are in `src/`.  The record-store operations those routes
implement are therefore modelled from the spec's Record Store Gateway
contract (spec §6) and marked `Modelled from the spec:` in their doc
comments.  Everything else is translated from the source.
-/

/-- Calendar date as used throughout the app: ISO `YYYY-MM-DD` with no time
component.  `month` is the 0-based month index (0 = January) matching JS
`Date.getMonth`; `day` is the 1-based day of month. -/
structure CalDate where
  year : Int
  month : Nat
  day : Nat
deriving DecidableEq, Repr

/-- Customer record; the fields read by the billing core
(`src/js/database.js`).  CRUD-only fields (mobile, address, mealTimes,
advanceAmount, referral, startDate) are never read by the invoice engine and
are omitted. -/
structure Customer where
  id : String
  name : String
  subscriptionType : String
  dailyAmount : Rat
  status : String
deriving DecidableEq, Repr

/-- Menu item record; the invoice engine reads only `id` (lookup key) and
`name` (display). -/
structure MenuItem where
  id : String
  name : String
  category : String
  price : Rat
  available : Bool
deriving DecidableEq, Repr

/-- Daily extra entry as stored: customer reference, calendar date, meal
slot string (`breakfast` / `lunch` / `dinner`), menu-item reference, price
captured at entry time, free-text note, and creation/update timestamps. -/
structure DailyExtra where
  id : Nat
  customerId : String
  date : CalDate
  mealType : String
  menuItemId : String
  price : Rat
  notes : String
  createdAt : Nat
  updatedAt : Nat
deriving DecidableEq, Repr

/-- Advance payment: a prepaid credit applied against a specific month of a
specific year.  `month` is stored 1-12, as the comment at
`src/js/database.js` line 320 records (`API expects 1-12`). -/
structure AdvancePayment where
  id : String
  customerId : String
  amount : Rat
  month : Nat
  year : Int
deriving DecidableEq, Repr

/-- The record store contents reachable by the core: customers, menu items,
daily extras and advance payments, plus the next identity the store will
assign to a freshly created extra. -/
structure Store where
  customers : List Customer
  menuItems : List MenuItem
  extras : List DailyExtra
  advances : List AdvancePayment
  nextExtraId : Nat
deriving DecidableEq, Repr

/-- A store with no records. -/
def emptyStore : Store := ⟨[], [], [], [], 1⟩

/-- Modelled from the spec: the `GET /customers/:id` route is not in the
snapshot (`DB.getCustomer` at src/js/database.js lines 74-76 only forwards
the REST call).  Spec §6: `getCustomer(id) -> Customer | not-found`. -/
def getCustomer (s : Store) (id : String) : Option Customer :=
  s.customers.find? fun c => c.id = id

/-- Membership lookup of `DB.getMenuItem` specialised to a fetched list:
`menuItems.find(m => m.id === id)` (src/js/database.js lines 127-130 and the
local `findMenuItem` closures at lines 284 and 356). -/
def findMenuItem (s : Store) (id : String) : Option MenuItem :=
  s.menuItems.find? fun m => m.id = id

/-- `DB.getExtrasByCustomer` (src/js/database.js lines 166-169): all extras
whose `customerId` matches. -/
def getExtrasByCustomer (s : Store) (customerId : String) : List DailyExtra :=
  s.extras.filter fun e => e.customerId = customerId

/-- `DB.getExtrasByCustomerAndMonth` (src/js/database.js lines 175-181):
the customer's extras whose parsed date has the given full year and 0-based
month index. -/
def getExtrasByCustomerAndMonth (s : Store) (customerId : String) (year : Int)
    (month : Nat) : List DailyExtra :=
  (getExtrasByCustomer s customerId).filter fun e =>
    e.date.year = year ∧ e.date.month = month

/-- Modelled from the spec: the `GET /extras/date/:date` route is not in the
snapshot (`DB.getExtrasByDate`, src/js/database.js lines 171-173, forwards
the call).  Spec §6: `listExtrasForDate(date) -> list<DailyExtra>`, all
entries across all customers for that date. -/
def getExtrasByDate (s : Store) (date : CalDate) : List DailyExtra :=
  s.extras.filter fun e => e.date = date

/-- Modelled from the spec: the `GET /advance` route is not in the snapshot
(`DB.getAdvancePayments`, src/js/database.js lines 212-220, builds the query
string and forwards).  Spec §6: `listAdvancePayments(customerId, year) ->
list<AdvancePayment>`, each tagged with its target month. -/
def getAdvancePayments (s : Store) (customerId : String) (year : Int) :
    List AdvancePayment :=
  s.advances.filter fun p => p.customerId = customerId ∧ p.year = year

/-- Leap-year rule of the Gregorian calendar, as JS `Date` applies it. -/
def isLeapYear (y : Int) : Bool :=
  (y % 4 == 0 && y % 100 != 0) || y % 400 == 0

/-- Days in a month: embeds `new Date(year, month + 1, 0).getDate()`
(src/js/database.js line 276) for a 0-based month index 0..11, i.e. the
Gregorian day count 28-31 (the JS `Date` constructor remap of years 0..99
to 1900+year is outside the modelled input range). -/
def daysInMonth (year : Int) (month : Nat) : Nat :=
  if month = 1 then (if isLeapYear year then 29 else 28)
  else if month = 3 ∨ month = 5 ∨ month = 8 ∨ month = 10 then 30
  else 31

/-- Sum of the prices of a list of extras (the `forEach` accumulations at
src/js/database.js lines 300-302 and 359-363). -/
def sumPrices (l : List DailyExtra) : Rat :=
  (l.map fun e => e.price).sum

/-- Sum of the amounts of a list of advance payments (the `forEach`
accumulation at src/js/database.js lines 322-323). -/
def sumAmounts (l : List AdvancePayment) : Rat :=
  (l.map fun p => p.amount).sum

/-- Fractional decimal digits of `r / den` by long division, up to the
given fuel; used to render the finite decimals that JS number-to-string
interpolation produces for the prices entered through the UI. -/
def fracDigits : Nat → Nat → Nat → String
  | 0, _, _ => ""
  | _ + 1, 0, _ => ""
  | fuel + 1, r, den => toString (r * 10 / den) ++ fracDigits fuel (r * 10 % den) den

/-- Decimal rendering of a price, as the template interpolation
`₹$\x7bextra.price\x7d` (src/js/database.js line 400) produces: integers
print with no decimal point, finite decimals print their digits. -/
def priceStr (q : Rat) : String :=
  if q.den = 1 then toString q.num
  else
    (if q.num < 0 then "-" else "") ++ toString (q.num.natAbs / q.den) ++ "."
      ++ fracDigits 17 (q.num.natAbs % q.den) q.den

/-- JS `String.prototype.trim`: strip leading and trailing whitespace. -/
def jsTrim (s : String) : String :=
  String.mk (((s.data.dropWhile Char.isWhitespace).reverse.dropWhile
    Char.isWhitespace).reverse)

/-- `DB.formatExtraDisplay(extra, menuItem)` (src/js/database.js lines
398-405): `"<name> – ₹<price>"`, with `name` falling back to the literal
`"Item"` when the menu item is missing, and `" (<notes>)"` appended only
when `extra.notes` is truthy and truthy after trimming. -/
def formatExtraDisplay (extra : DailyExtra) (menuItem : Option MenuItem) : String :=
  let name := match menuItem with
    | some m => m.name
    | none => "Item"
  let display := name ++ " – ₹" ++ priceStr extra.price
  if extra.notes ≠ "" ∧ jsTrim extra.notes ≠ "" then
    display ++ " (" ++ extra.notes ++ ")"
  else
    display

/-- The extras of `extras` falling on date `d` in meal slot `slot`: the
`extras.filter(e => matchDate(e.date) && e.mealType === ...)` selections at
src/js/database.js lines 296-298. -/
def dayMatches (extras : List DailyExtra) (d : CalDate) (slot : String) :
    List DailyExtra :=
  extras.filter fun e => e.date = d ∧ e.mealType = slot

/-- JS `Array.prototype.join(sep)`: elements concatenated with the
separator between consecutive elements; the empty list joins to `""`. -/
def jsJoin (sep : String) : List String → String
  | [] => ""
  | [x] => x
  | x :: xs => x ++ sep ++ jsJoin sep xs

/-- A monthly invoice cell (src/js/database.js lines 307-309): the matched
extras formatted and joined with `<br>` when there is at least one,
otherwise the literal `-`. -/
def slotCell (s : Store) (l : List DailyExtra) : String :=
  if l.length > 0 then
    jsJoin "<br>" (l.map fun e => formatExtraDisplay e (findMenuItem s e.menuItemId))
  else "-"

/-- A daily invoice cell (src/js/database.js lines 381-383):
`....map(...).join('<br>') || '-'`; the join of an empty list is the empty
string, which is falsy, so it renders as `-`. -/
def dailySlotCell (s : Store) (l : List DailyExtra) : String :=
  let joined := jsJoin "<br>" (l.map fun e => formatExtraDisplay e (findMenuItem s e.menuItemId))
  if joined = "" then "-" else joined

/-- One row of `dateWiseData` (src/js/database.js lines 304-310). -/
structure InvoiceRow where
  date : CalDate
  day : Nat
  breakfast : String
  lunch : String
  dinner : String
deriving DecidableEq, Repr

/-- The `summary` block of a monthly invoice (src/js/database.js lines
334-344). -/
structure InvoiceSummary where
  daysInMonth : Nat
  dailyAmount : Rat
  subscriptionTotal : Rat
  breakfastTotal : Rat
  lunchTotal : Rat
  dinnerTotal : Rat
  extrasTotal : Rat
  totalAdvance : Rat
  grandTotal : Rat
deriving DecidableEq, Repr

/-- The monthly invoice value returned by `generateInvoiceData`
(src/js/database.js lines 327-345).  The locale-dependent `monthName`
display string is not modelled. -/
structure InvoiceData where
  customer : Customer
  month : Nat
  year : Int
  periodType : String
  dateWiseData : List InvoiceRow
  summary : InvoiceSummary
deriving DecidableEq, Repr

/-- The row built for one day of the month (src/js/database.js lines
286-311): the date string is `year-month-day` for the loop's day, and each
meal cell formats that day's slot matches. -/
def invoiceRow (s : Store) (extras : List DailyExtra) (year : Int) (month : Nat)
    (day : Nat) : InvoiceRow :=
  let dateStr : CalDate := ⟨year, month, day⟩
  { date := dateStr
    day := day
    breakfast := slotCell s (dayMatches extras dateStr "breakfast")
    lunch := slotCell s (dayMatches extras dateStr "lunch")
    dinner := slotCell s (dayMatches extras dateStr "dinner") }

/-- `DB.generateInvoiceData(customerId, year, month)` (src/js/database.js
lines 271-346): fetch the customer (null when absent), fetch the customer's
extras of the month, walk days 1..daysInMonth building `dateWiseData` and
accumulating per-meal totals, compute the subscription total (flat
`dailyAmount` for a `monthly` subscription, `dailyAmount * daysInMonth`
otherwise), sum the advance payments filtered to `p.month === month + 1`,
and return the summary with
`grandTotal = subscriptionTotal + extrasTotal - totalAdvance`. -/
def generateInvoiceData (s : Store) (customerId : String) (year : Int)
    (month : Nat) : Option InvoiceData :=
  match getCustomer s customerId with
  | none => none
  | some customer =>
    let extras := getExtrasByCustomerAndMonth s customerId year month
    let days := (List.range (daysInMonth year month)).map (· + 1)
    let dateWiseData := days.map (invoiceRow s extras year month)
    let breakfastTotal := (days.map fun d => sumPrices (dayMatches extras ⟨year, month, d⟩ "breakfast")).sum
    let lunchTotal := (days.map fun d => sumPrices (dayMatches extras ⟨year, month, d⟩ "lunch")).sum
    let dinnerTotal := (days.map fun d => sumPrices (dayMatches extras ⟨year, month, d⟩ "dinner")).sum
    let subscriptionTotal : Rat :=
      if customer.subscriptionType = "monthly" then customer.dailyAmount
      else customer.dailyAmount * (daysInMonth year month : Rat)
    let extrasTotal := breakfastTotal + lunchTotal + dinnerTotal
    let relevantAdvances := (getAdvancePayments s customerId year).filter fun p => p.month = month + 1
    let totalAdvance := sumAmounts relevantAdvances
    let grandTotal := subscriptionTotal + extrasTotal - totalAdvance
    some { customer := customer
           month := month
           year := year
           periodType := "monthly"
           dateWiseData := dateWiseData
           summary := { daysInMonth := daysInMonth year month
                        dailyAmount := customer.dailyAmount
                        subscriptionTotal := subscriptionTotal
                        breakfastTotal := breakfastTotal
                        lunchTotal := lunchTotal
                        dinnerTotal := dinnerTotal
                        extrasTotal := extrasTotal
                        totalAdvance := totalAdvance
                        grandTotal := grandTotal } }

/-- The `summary` block of a daily invoice (src/js/database.js lines
385-394): it carries no advance field at all. -/
structure DailySummary where
  daysInMonth : Nat
  dailyAmount : Rat
  subscriptionTotal : Rat
  breakfastTotal : Rat
  lunchTotal : Rat
  dinnerTotal : Rat
  extrasTotal : Rat
  grandTotal : Rat
deriving DecidableEq, Repr

/-- The daily invoice value returned by `generateDailyInvoiceData`
(src/js/database.js lines 371-395).  The locale-dependent `monthName` is
not modelled. -/
structure DailyInvoiceData where
  customer : Customer
  date : CalDate
  periodType : String
  year : Int
  day : Nat
  dateWiseData : List InvoiceRow
  summary : DailySummary
deriving DecidableEq, Repr

/-- `DB.generateDailyInvoiceData(customerId, date)` (src/js/database.js
lines 348-396): fetch the customer (null when absent), take the date's
extras restricted to the customer, split per meal slot, subscription total
0 for a `monthly` subscription and `dailyAmount` otherwise, and
`grandTotal = subscriptionTotal + extrasTotal` with no advance deduction. -/
def generateDailyInvoiceData (s : Store) (customerId : String) (date : CalDate) :
    Option DailyInvoiceData :=
  match getCustomer s customerId with
  | none => none
  | some customer =>
    let customerExtras := (getExtrasByDate s date).filter fun e => e.customerId = customerId
    let breakfastTotal := sumPrices (customerExtras.filter fun e => e.mealType = "breakfast")
    let lunchTotal := sumPrices (customerExtras.filter fun e => e.mealType = "lunch")
    let dinnerTotal := sumPrices (customerExtras.filter fun e => e.mealType = "dinner")
    let subscriptionTotal : Rat :=
      if customer.subscriptionType = "monthly" then 0 else customer.dailyAmount
    let extrasTotal := breakfastTotal + lunchTotal + dinnerTotal
    let grandTotal := subscriptionTotal + extrasTotal
    some { customer := customer
           date := date
           periodType := "daily"
           year := date.year
           day := date.day
           dateWiseData := [{ date := date
                              day := date.day
                              breakfast := dailySlotCell s (customerExtras.filter fun e => e.mealType = "breakfast")
                              lunch := dailySlotCell s (customerExtras.filter fun e => e.mealType = "lunch")
                              dinner := dailySlotCell s (customerExtras.filter fun e => e.mealType = "dinner") }]
           summary := { daysInMonth := 1
                        dailyAmount := customer.dailyAmount
                        subscriptionTotal := subscriptionTotal
                        breakfastTotal := breakfastTotal
                        lunchTotal := lunchTotal
                        dinnerTotal := dinnerTotal
                        extrasTotal := extrasTotal
                        grandTotal := grandTotal } }

/-- A proposed extra-entry write, the body `DB.addDailyExtra` posts to the
store (src/unnamed/part_001 lines 277-284). -/
structure ExtraWrite where
  customerId : String
  date : CalDate
  mealType : String
  menuItemId : String
  price : Rat
  notes : String
deriving DecidableEq, Repr

/-- Whether a stored extra occupies the slot a write addresses: same
customer, same calendar date, same meal slot. -/
def extraMatches (w : ExtraWrite) (e : DailyExtra) : Bool :=
  e.customerId = w.customerId ∧ e.date = w.date ∧ e.mealType = w.mealType

/-- Replace the first entry matching the write's slot in place: its
menu-item reference, price and notes become the write's and its update time
is stamped, while its identity, creation time and slot key are kept. -/
def replaceFirst (w : ExtraWrite) (t : Nat) : List DailyExtra → List DailyExtra
  | [] => []
  | e :: es =>
    if extraMatches w e then
      { e with menuItemId := w.menuItemId, price := w.price, notes := w.notes,
               updatedAt := t } :: es
    else
      e :: replaceFirst w t es

/-- Modelled from the spec: the `POST /extras` route that `DB.addDailyExtra`
(src/js/database.js lines 188-193) posts to is not in the snapshot.  Spec §6
`upsertExtra(entry)` with the overwrite semantics of §4.1: look up any
existing entry keyed by (customer id, date, meal slot); if found, replace
its menu-item reference, price and note in place and stamp an update time,
preserving identity and creation time; if not found, create a new entry
with a freshly generated identity and creation time. -/
def upsertExtra (s : Store) (t : Nat) (w : ExtraWrite) : Store :=
  if s.extras.any (extraMatches w) then
    { s with extras := replaceFirst w t s.extras }
  else
    { s with
        extras := s.extras ++
          [{ id := s.nextExtraId, customerId := w.customerId, date := w.date,
             mealType := w.mealType, menuItemId := w.menuItemId, price := w.price,
             notes := w.notes, createdAt := t, updatedAt := t }]
        nextExtraId := s.nextExtraId + 1 }

/-- All stored extras occupying the (customer, date, meal slot) slot. -/
def slotEntries (s : Store) (customerId : String) (date : CalDate)
    (mealType : String) : List DailyExtra :=
  s.extras.filter fun e =>
    e.customerId = customerId ∧ e.date = date ∧ e.mealType = mealType

/-- Apply a sequence of admitted writes, each with its timestamp, in order. -/
def applyWrites (s : Store) (ws : List (Nat × ExtraWrite)) : Store :=
  ws.foldl (fun acc tw => upsertExtra acc tw.1 tw.2) s

/-- The extras entry form as `Extras.save` reads it (src/unnamed/part_001
lines 257-262): customer id and menu-item id are `''` when unselected, the
date input value is `''` (none) or a calendar date, the meal-type radio
value is absent (none) until one is checked, the price is the parsed value
of the required numeric input, and the notes hold the raw input value
(`Extras.save` trims them on read). -/
structure ExtraForm where
  customerId : String
  date : Option CalDate
  mealType : Option String
  menuItemId : String
  price : Rat
  notes : String
deriving DecidableEq, Repr

/-- Outcome `Extras.save` surfaces through `App.showToast`: a success toast
or an error toast with the shown message. -/
inductive SaveOutcome where
  | saved (mealType : String)
  | errorToast (message : String)
deriving DecidableEq, Repr

/-- `Extras.save` (src/unnamed/part_001 lines 254-302): reject with an
error toast when a required field is missing, then reject with an error
toast when the price is negative, and only otherwise post the entry via
`DB.addDailyExtra` (modelled by `upsertExtra`); a rejected call performs no
write at all. -/
def extrasSave (s : Store) (t : Nat) (f : ExtraForm) : Store × SaveOutcome :=
  match f.date, f.mealType with
  | some date, some mealType =>
    if f.customerId = "" ∨ f.menuItemId = "" then
      (s, .errorToast "Please fill in all required fields")
    else if f.price < 0 then
      (s, .errorToast "Price cannot be negative")
    else
      (upsertExtra s t
        { customerId := f.customerId, date := date, mealType := mealType,
          menuItemId := f.menuItemId, price := f.price, notes := jsTrim f.notes },
       .saved mealType)
  | _, _ => (s, .errorToast "Please fill in all required fields")

/-- A placeholder invoice used only to project out of an `Option` at
concrete inputs. -/
def junkInvoice : InvoiceData :=
  ⟨⟨"", "", "", 0, ""⟩, 0, 0, "", [], ⟨0, 0, 0, 0, 0, 0, 0, 0, 0⟩⟩

/-- A placeholder daily invoice used only to project out of an `Option` at
concrete inputs. -/
def junkDailyInvoice : DailyInvoiceData :=
  ⟨⟨"", "", "", 0, ""⟩, ⟨0, 0, 0⟩, "", 0, 0, [], ⟨0, 0, 0, 0, 0, 0, 0, 0⟩⟩

/-- Concrete store matching the spec's end-to-end scenario: customer `c1`
with a `daily` subscription of 300, a lunch menu item priced 80, one lunch
extra of price 80 on day 5 of April 2026 (a 30-day month), and one advance
payment of 500 for April 2026. -/
def storeA : Store :=
  { customers := [⟨"c1", "A", "daily", 300, "active"⟩]
    menuItems := [⟨"m1", "Veg Thali", "lunch", 80, true⟩]
    extras := [⟨1, "c1", ⟨2026, 3, 5⟩, "lunch", "m1", 80, "", 0, 0⟩]
    advances := [⟨"a1", "c1", 500, 4, 2026⟩]
    nextExtraId := 2 }

/-- C1: every monthly invoice satisfies
`grandTotal = subscriptionTotal + extrasTotal - totalAdvance`, where
`totalAdvance` is the sum of the amounts of the customer's advance payments
recorded for the target month (stored 1-12, hence `m + 1` for the 0-based
month index `m`) and year; every such advance payment is subtracted from
the grand total. -/
theorem invoice_monthly_grand_total_advance (s : Store) (cid : String) (y : Int)
    (m : Nat) (inv : InvoiceData) (h : generateInvoiceData s cid y m = some inv) :
    inv.summary.grandTotal =
      inv.summary.subscriptionTotal + inv.summary.extrasTotal - inv.summary.totalAdvance ∧
    inv.summary.totalAdvance =
      sumAmounts (s.advances.filter fun p =>
        p.customerId = cid ∧ p.year = y ∧ p.month = m + 1) := by
  rcases hc : getCustomer s cid with _ | c
  · simp only [generateInvoiceData, hc] at h
    exact Option.noConfusion h
  · simp only [generateInvoiceData, hc, Option.some.injEq] at h
    subst h
    refine ⟨rfl, ?_⟩
    show sumAmounts (((s.advances.filter fun p =>
        p.customerId = cid ∧ p.year = y).filter fun p => p.month = m + 1)) = _
    rw [List.filter_filter]
    congr 1
    apply List.filter_congr
    intro p _
    simp [Bool.and_comm, Bool.and_left_comm, Bool.and_assoc]

set_option maxRecDepth 16000 in
unseal Rat.add Rat.mul Rat.sub in
/-- Witness for C1 at the spec's end-to-end scenario: April 2026, daily
subscription 300, one lunch extra 80, one advance 500. -/
theorem invoice_monthly_grand_total_advance_witness :
    generateInvoiceData storeA "c1" 2026 3 =
      some ((generateInvoiceData storeA "c1" 2026 3).getD junkInvoice) ∧
    ((generateInvoiceData storeA "c1" 2026 3).getD junkInvoice).summary.grandTotal =
      ((generateInvoiceData storeA "c1" 2026 3).getD junkInvoice).summary.subscriptionTotal +
      ((generateInvoiceData storeA "c1" 2026 3).getD junkInvoice).summary.extrasTotal -
      ((generateInvoiceData storeA "c1" 2026 3).getD junkInvoice).summary.totalAdvance ∧
    ((generateInvoiceData storeA "c1" 2026 3).getD junkInvoice).summary.totalAdvance =
      sumAmounts (storeA.advances.filter fun p =>
        p.customerId = "c1" ∧ p.year = 2026 ∧ p.month = 3 + 1) := by
  have h : generateInvoiceData storeA "c1" 2026 3 =
      some ((generateInvoiceData storeA "c1" 2026 3).getD junkInvoice) := by decide
  exact ⟨h, (invoice_monthly_grand_total_advance storeA "c1" 2026 3 _ h).1,
    (invoice_monthly_grand_total_advance storeA "c1" 2026 3 _ h).2⟩

/-- C3: in a monthly invoice, `subscriptionTotal` is the flat `dailyAmount`
for a `monthly` subscription and `dailyAmount * daysInMonth` for a `daily`
subscription, where `daysInMonth` is the Gregorian day count of the target
(year, 0-based month): between 28 and 31, and for February exactly 29 in a
leap year and 28 otherwise. -/
theorem invoice_monthly_subscription_total (s : Store) (cid : String) (y : Int)
    (m : Nat) (inv : InvoiceData) (hm : m < 12)
    (h : generateInvoiceData s cid y m = some inv) :
    inv.summary.daysInMonth = daysInMonth y m ∧
    (28 ≤ inv.summary.daysInMonth ∧ inv.summary.daysInMonth ≤ 31) ∧
    (m = 1 → inv.summary.daysInMonth = if isLeapYear y then 29 else 28) ∧
    (inv.customer.subscriptionType = "monthly" →
      inv.summary.subscriptionTotal = inv.customer.dailyAmount) ∧
    (inv.customer.subscriptionType = "daily" →
      inv.summary.subscriptionTotal =
        inv.customer.dailyAmount * (inv.summary.daysInMonth : Rat)) := by
  rcases hc : getCustomer s cid with _ | c
  · simp only [generateInvoiceData, hc] at h
    exact Option.noConfusion h
  · simp only [generateInvoiceData, hc, Option.some.injEq] at h
    subst h
    refine ⟨rfl, ?_, ?_, ?_, ?_⟩
    · show 28 ≤ daysInMonth y m ∧ daysInMonth y m ≤ 31
      unfold daysInMonth
      split
      · split <;> omega
      · split <;> omega
    · intro hm1
      subst hm1
      show daysInMonth y 1 = _
      unfold daysInMonth
      simp
    · intro hmono
      show (if c.subscriptionType = "monthly" then c.dailyAmount
            else c.dailyAmount * (daysInMonth y m : Rat)) = c.dailyAmount
      rw [if_pos hmono]
    · intro hdaily
      show (if c.subscriptionType = "monthly" then c.dailyAmount
            else c.dailyAmount * (daysInMonth y m : Rat)) = _
      rw [if_neg (by rw [hdaily]; decide)]

set_option maxRecDepth 16000 in
unseal Rat.add Rat.mul Rat.sub in
/-- Witness for C3 at April 2026 for the `daily` customer of `storeA`:
30 days, subscription total 300 * 30. -/
theorem invoice_monthly_subscription_total_witness :
    (3 < 12) ∧
    generateInvoiceData storeA "c1" 2026 3 =
      some ((generateInvoiceData storeA "c1" 2026 3).getD junkInvoice) ∧
    (((generateInvoiceData storeA "c1" 2026 3).getD junkInvoice).summary.daysInMonth =
        daysInMonth 2026 3 ∧
      (28 ≤ ((generateInvoiceData storeA "c1" 2026 3).getD junkInvoice).summary.daysInMonth ∧
        ((generateInvoiceData storeA "c1" 2026 3).getD junkInvoice).summary.daysInMonth ≤ 31) ∧
      (3 = 1 → ((generateInvoiceData storeA "c1" 2026 3).getD junkInvoice).summary.daysInMonth =
        if isLeapYear 2026 then 29 else 28) ∧
      (((generateInvoiceData storeA "c1" 2026 3).getD junkInvoice).customer.subscriptionType = "monthly" →
        ((generateInvoiceData storeA "c1" 2026 3).getD junkInvoice).summary.subscriptionTotal =
          ((generateInvoiceData storeA "c1" 2026 3).getD junkInvoice).customer.dailyAmount) ∧
      (((generateInvoiceData storeA "c1" 2026 3).getD junkInvoice).customer.subscriptionType = "daily" →
        ((generateInvoiceData storeA "c1" 2026 3).getD junkInvoice).summary.subscriptionTotal =
          ((generateInvoiceData storeA "c1" 2026 3).getD junkInvoice).customer.dailyAmount *
            (((generateInvoiceData storeA "c1" 2026 3).getD junkInvoice).summary.daysInMonth : Rat))) := by
  have h : generateInvoiceData storeA "c1" 2026 3 =
      some ((generateInvoiceData storeA "c1" 2026 3).getD junkInvoice) := by decide
  exact ⟨by decide, h, invoice_monthly_subscription_total storeA "c1" 2026 3 _ (by decide) h⟩

/-- C4: in a daily invoice, `grandTotal = subscriptionTotal + extrasTotal`
with no advance deduction of any kind (the daily summary carries no advance
field), `subscriptionTotal` is 0 for a `monthly` subscription and
`dailyAmount` for a `daily` subscription. -/
theorem invoice_daily_grand_total (s : Store) (cid : String) (d : CalDate)
    (inv : DailyInvoiceData) (h : generateDailyInvoiceData s cid d = some inv) :
    inv.summary.grandTotal = inv.summary.subscriptionTotal + inv.summary.extrasTotal ∧
    (inv.customer.subscriptionType = "monthly" → inv.summary.subscriptionTotal = 0) ∧
    (inv.customer.subscriptionType = "daily" →
      inv.summary.subscriptionTotal = inv.customer.dailyAmount) := by
  rcases hc : getCustomer s cid with _ | c
  · simp only [generateDailyInvoiceData, hc] at h
    exact Option.noConfusion h
  · simp only [generateDailyInvoiceData, hc, Option.some.injEq] at h
    subst h
    refine ⟨rfl, ?_, ?_⟩
    · intro hmono
      show (if c.subscriptionType = "monthly" then (0 : Rat) else c.dailyAmount) = 0
      rw [if_pos hmono]
    · intro hdaily
      show (if c.subscriptionType = "monthly" then (0 : Rat) else c.dailyAmount) = _
      rw [if_neg (by rw [hdaily]; decide)]

set_option maxRecDepth 16000 in
unseal Rat.add Rat.mul Rat.sub in
/-- Witness for C4 on the day of the lunch extra in `storeA`: subscription
total 300 (daily customer), extras 80, grand total 380. -/
theorem invoice_daily_grand_total_witness :
    generateDailyInvoiceData storeA "c1" ⟨2026, 3, 5⟩ =
      some ((generateDailyInvoiceData storeA "c1" ⟨2026, 3, 5⟩).getD junkDailyInvoice) ∧
    (((generateDailyInvoiceData storeA "c1" ⟨2026, 3, 5⟩).getD junkDailyInvoice).summary.grandTotal =
        ((generateDailyInvoiceData storeA "c1" ⟨2026, 3, 5⟩).getD junkDailyInvoice).summary.subscriptionTotal +
        ((generateDailyInvoiceData storeA "c1" ⟨2026, 3, 5⟩).getD junkDailyInvoice).summary.extrasTotal ∧
      (((generateDailyInvoiceData storeA "c1" ⟨2026, 3, 5⟩).getD junkDailyInvoice).customer.subscriptionType = "monthly" →
        ((generateDailyInvoiceData storeA "c1" ⟨2026, 3, 5⟩).getD junkDailyInvoice).summary.subscriptionTotal = 0) ∧
      (((generateDailyInvoiceData storeA "c1" ⟨2026, 3, 5⟩).getD junkDailyInvoice).customer.subscriptionType = "daily" →
        ((generateDailyInvoiceData storeA "c1" ⟨2026, 3, 5⟩).getD junkDailyInvoice).summary.subscriptionTotal =
          ((generateDailyInvoiceData storeA "c1" ⟨2026, 3, 5⟩).getD junkDailyInvoice).customer.dailyAmount)) := by
  have h : generateDailyInvoiceData storeA "c1" ⟨2026, 3, 5⟩ =
      some ((generateDailyInvoiceData storeA "c1" ⟨2026, 3, 5⟩).getD junkDailyInvoice) := by decide
  exact ⟨h, invoice_daily_grand_total storeA "c1" ⟨2026, 3, 5⟩ _ h⟩

/-- C7: for every generated invoice, monthly or daily,
`extrasTotal = breakfastTotal + lunchTotal + dinnerTotal`. -/
theorem invoice_extras_total_decomposition :
    (∀ (s : Store) (cid : String) (y : Int) (m : Nat) (inv : InvoiceData),
      generateInvoiceData s cid y m = some inv →
      inv.summary.extrasTotal =
        inv.summary.breakfastTotal + inv.summary.lunchTotal + inv.summary.dinnerTotal) ∧
    (∀ (s : Store) (cid : String) (d : CalDate) (inv : DailyInvoiceData),
      generateDailyInvoiceData s cid d = some inv →
      inv.summary.extrasTotal =
        inv.summary.breakfastTotal + inv.summary.lunchTotal + inv.summary.dinnerTotal) := by
  constructor
  · intro s cid y m inv h
    rcases hc : getCustomer s cid with _ | c
    · simp only [generateInvoiceData, hc] at h
      exact Option.noConfusion h
    · simp only [generateInvoiceData, hc, Option.some.injEq] at h
      subst h
      rfl
  · intro s cid d inv h
    rcases hc : getCustomer s cid with _ | c
    · simp only [generateDailyInvoiceData, hc] at h
      exact Option.noConfusion h
    · simp only [generateDailyInvoiceData, hc, Option.some.injEq] at h
      subst h
      rfl

set_option maxRecDepth 16000 in
unseal Rat.add Rat.mul Rat.sub in
/-- Witness for C7: both the monthly and the daily generator at concrete
inputs in `storeA`. -/
theorem invoice_extras_total_decomposition_witness :
    generateInvoiceData storeA "c1" 2026 3 =
      some ((generateInvoiceData storeA "c1" 2026 3).getD junkInvoice) ∧
    ((generateInvoiceData storeA "c1" 2026 3).getD junkInvoice).summary.extrasTotal =
      ((generateInvoiceData storeA "c1" 2026 3).getD junkInvoice).summary.breakfastTotal +
      ((generateInvoiceData storeA "c1" 2026 3).getD junkInvoice).summary.lunchTotal +
      ((generateInvoiceData storeA "c1" 2026 3).getD junkInvoice).summary.dinnerTotal ∧
    generateDailyInvoiceData storeA "c1" ⟨2026, 3, 5⟩ =
      some ((generateDailyInvoiceData storeA "c1" ⟨2026, 3, 5⟩).getD junkDailyInvoice) ∧
    ((generateDailyInvoiceData storeA "c1" ⟨2026, 3, 5⟩).getD junkDailyInvoice).summary.extrasTotal =
      ((generateDailyInvoiceData storeA "c1" ⟨2026, 3, 5⟩).getD junkDailyInvoice).summary.breakfastTotal +
      ((generateDailyInvoiceData storeA "c1" ⟨2026, 3, 5⟩).getD junkDailyInvoice).summary.lunchTotal +
      ((generateDailyInvoiceData storeA "c1" ⟨2026, 3, 5⟩).getD junkDailyInvoice).summary.dinnerTotal := by
  have h1 : generateInvoiceData storeA "c1" 2026 3 =
      some ((generateInvoiceData storeA "c1" 2026 3).getD junkInvoice) := by decide
  have h2 : generateDailyInvoiceData storeA "c1" ⟨2026, 3, 5⟩ =
      some ((generateDailyInvoiceData storeA "c1" ⟨2026, 3, 5⟩).getD junkDailyInvoice) := by decide
  exact ⟨h1, invoice_extras_total_decomposition.1 storeA "c1" 2026 3 _ h1,
    h2, invoice_extras_total_decomposition.2 storeA "c1" ⟨2026, 3, 5⟩ _ h2⟩

/-- C8: `formatExtraDisplay` renders `"<name> – ₹<price>"`, appends
`" (<note>)"` only when the note is non-empty after trimming whitespace,
and falls back to the literal name `"Item"` when the menu item cannot be
resolved; in particular price 80 with notes `"extra spicy"` and item
`"Veg Thali"` gives exactly `"Veg Thali – ₹80 (extra spicy)"`, and with
empty (or whitespace-only) notes exactly `"Veg Thali – ₹80"`. -/
theorem format_extra_display_examples :
    formatExtraDisplay ⟨1, "c1", ⟨2026, 0, 5⟩, "lunch", "m1", 80, "extra spicy", 0, 0⟩
        (some ⟨"m1", "Veg Thali", "lunch", 80, true⟩) = "Veg Thali – ₹80 (extra spicy)" ∧
    formatExtraDisplay ⟨1, "c1", ⟨2026, 0, 5⟩, "lunch", "m1", 80, "", 0, 0⟩
        (some ⟨"m1", "Veg Thali", "lunch", 80, true⟩) = "Veg Thali – ₹80" ∧
    formatExtraDisplay ⟨1, "c1", ⟨2026, 0, 5⟩, "lunch", "m1", 80, "   ", 0, 0⟩
        (some ⟨"m1", "Veg Thali", "lunch", 80, true⟩) = "Veg Thali – ₹80" ∧
    formatExtraDisplay ⟨1, "c1", ⟨2026, 0, 5⟩, "lunch", "m1", 80, "extra spicy", 0, 0⟩
        none = "Item – ₹80 (extra spicy)" := by
  refine ⟨?_, ?_, ?_, ?_⟩ <;> decide

/-- A monthly-invoice day/slot match is in particular a stored extra of the
customer occupying that (customer, date, meal slot). -/
theorem mem_dayMatches_month (s : Store) (cid : String) (y : Int) (m : Nat)
    (d : CalDate) (slot : String) (e : DailyExtra)
    (he : e ∈ dayMatches (getExtrasByCustomerAndMonth s cid y m) d slot) :
    e ∈ slotEntries s cid d slot := by
  simp only [dayMatches, getExtrasByCustomerAndMonth, getExtrasByCustomer,
    slotEntries, List.mem_filter, decide_eq_true_eq] at he ⊢
  tauto

/-- A daily-invoice slot match is in particular a stored extra of the
customer occupying that (customer, date, meal slot). -/
theorem mem_dailyMatches (s : Store) (cid : String) (d : CalDate) (slot : String)
    (e : DailyExtra)
    (he : e ∈ ((getExtrasByDate s d).filter fun x => x.customerId = cid).filter
      fun x => x.mealType = slot) :
    e ∈ slotEntries s cid d slot := by
  simp only [getExtrasByDate, slotEntries, List.mem_filter, decide_eq_true_eq] at he ⊢
  tauto

/-- C9: in every generated invoice, a meal-slot cell of a day for which the
customer has no extra stored in that slot is exactly the literal `"-"`;
moreover a monthly invoice has exactly `daysInMonth` rows and a daily
invoice exactly one. -/
theorem invoice_empty_slot_dash :
    (∀ (s : Store) (cid : String) (y : Int) (m : Nat) (inv : InvoiceData),
      generateInvoiceData s cid y m = some inv →
      inv.dateWiseData.length = inv.summary.daysInMonth ∧
      ∀ row ∈ inv.dateWiseData,
        (slotEntries s cid row.date "breakfast" = [] → row.breakfast = "-") ∧
        (slotEntries s cid row.date "lunch" = [] → row.lunch = "-") ∧
        (slotEntries s cid row.date "dinner" = [] → row.dinner = "-")) ∧
    (∀ (s : Store) (cid : String) (d : CalDate) (inv : DailyInvoiceData),
      generateDailyInvoiceData s cid d = some inv →
      inv.dateWiseData.length = 1 ∧
      ∀ row ∈ inv.dateWiseData,
        (slotEntries s cid row.date "breakfast" = [] → row.breakfast = "-") ∧
        (slotEntries s cid row.date "lunch" = [] → row.lunch = "-") ∧
        (slotEntries s cid row.date "dinner" = [] → row.dinner = "-")) := by
  constructor
  · intro s cid y m inv h
    rcases hc : getCustomer s cid with _ | c
    · simp only [generateInvoiceData, hc] at h
      exact Option.noConfusion h
    · simp only [generateInvoiceData, hc, Option.some.injEq] at h
      subst h
      constructor
      · show (((List.range (daysInMonth y m)).map (· + 1)).map _).length = daysInMonth y m
        simp
      · intro row hrow
        simp only [List.mem_map] at hrow
        obtain ⟨d, _, hrow⟩ := hrow
        subst hrow
        refine ⟨?_, ?_, ?_⟩ <;> intro hempty
        · show slotCell s (dayMatches (getExtrasByCustomerAndMonth s cid y m)
            ⟨y, m, d⟩ "breakfast") = "-"
          have hnil : dayMatches (getExtrasByCustomerAndMonth s cid y m)
              ⟨y, m, d⟩ "breakfast" = [] := by
            rw [List.eq_nil_iff_forall_not_mem]
            intro e he
            have hmem := mem_dayMatches_month s cid y m ⟨y, m, d⟩ "breakfast" e he
            have hempty2 : slotEntries s cid ⟨y, m, d⟩ "breakfast" = [] := hempty
            rw [hempty2] at hmem
            exact absurd hmem (List.not_mem_nil e)
          rw [hnil]
          rfl
        · show slotCell s (dayMatches (getExtrasByCustomerAndMonth s cid y m)
            ⟨y, m, d⟩ "lunch") = "-"
          have hnil : dayMatches (getExtrasByCustomerAndMonth s cid y m)
              ⟨y, m, d⟩ "lunch" = [] := by
            rw [List.eq_nil_iff_forall_not_mem]
            intro e he
            have hmem := mem_dayMatches_month s cid y m ⟨y, m, d⟩ "lunch" e he
            have hempty2 : slotEntries s cid ⟨y, m, d⟩ "lunch" = [] := hempty
            rw [hempty2] at hmem
            exact absurd hmem (List.not_mem_nil e)
          rw [hnil]
          rfl
        · show slotCell s (dayMatches (getExtrasByCustomerAndMonth s cid y m)
            ⟨y, m, d⟩ "dinner") = "-"
          have hnil : dayMatches (getExtrasByCustomerAndMonth s cid y m)
              ⟨y, m, d⟩ "dinner" = [] := by
            rw [List.eq_nil_iff_forall_not_mem]
            intro e he
            have hmem := mem_dayMatches_month s cid y m ⟨y, m, d⟩ "dinner" e he
            have hempty2 : slotEntries s cid ⟨y, m, d⟩ "dinner" = [] := hempty
            rw [hempty2] at hmem
            exact absurd hmem (List.not_mem_nil e)
          rw [hnil]
          rfl
  · intro s cid d inv h
    rcases hc : getCustomer s cid with _ | c
    · simp only [generateDailyInvoiceData, hc] at h
      exact Option.noConfusion h
    · simp only [generateDailyInvoiceData, hc, Option.some.injEq] at h
      subst h
      refine ⟨rfl, ?_⟩
      intro row hrow
      simp only [List.mem_singleton] at hrow
      subst hrow
      refine ⟨?_, ?_, ?_⟩ <;> intro hempty
      · show dailySlotCell s (((getExtrasByDate s d).filter fun x =>
          x.customerId = cid).filter fun x => x.mealType = "breakfast") = "-"
        have hnil : ((getExtrasByDate s d).filter fun x =>
            x.customerId = cid).filter (fun x => x.mealType = "breakfast") = [] := by
          rw [List.eq_nil_iff_forall_not_mem]
          intro e he
          have hmem := mem_dailyMatches s cid d "breakfast" e he
          rw [hempty] at hmem
          exact absurd hmem (List.not_mem_nil e)
        rw [hnil]
        rfl
      · show dailySlotCell s (((getExtrasByDate s d).filter fun x =>
          x.customerId = cid).filter fun x => x.mealType = "lunch") = "-"
        have hnil : ((getExtrasByDate s d).filter fun x =>
            x.customerId = cid).filter (fun x => x.mealType = "lunch") = [] := by
          rw [List.eq_nil_iff_forall_not_mem]
          intro e he
          have hmem := mem_dailyMatches s cid d "lunch" e he
          rw [hempty] at hmem
          exact absurd hmem (List.not_mem_nil e)
        rw [hnil]
        rfl
      · show dailySlotCell s (((getExtrasByDate s d).filter fun x =>
          x.customerId = cid).filter fun x => x.mealType = "dinner") = "-"
        have hnil : ((getExtrasByDate s d).filter fun x =>
            x.customerId = cid).filter (fun x => x.mealType = "dinner") = [] := by
          rw [List.eq_nil_iff_forall_not_mem]
          intro e he
          have hmem := mem_dailyMatches s cid d "dinner" e he
          rw [hempty] at hmem
          exact absurd hmem (List.not_mem_nil e)
        rw [hnil]
        rfl

set_option maxRecDepth 16000 in
unseal Rat.add Rat.mul Rat.sub in
/-- Witness for C9 at concrete inputs: the April 2026 monthly invoice of
`storeA` (30 rows) and the daily invoice for a day with no extras. -/
theorem invoice_empty_slot_dash_witness :
    generateInvoiceData storeA "c1" 2026 3 =
      some ((generateInvoiceData storeA "c1" 2026 3).getD junkInvoice) ∧
    (((generateInvoiceData storeA "c1" 2026 3).getD junkInvoice).dateWiseData.length =
        ((generateInvoiceData storeA "c1" 2026 3).getD junkInvoice).summary.daysInMonth ∧
      ∀ row ∈ ((generateInvoiceData storeA "c1" 2026 3).getD junkInvoice).dateWiseData,
        (slotEntries storeA "c1" row.date "breakfast" = [] → row.breakfast = "-") ∧
        (slotEntries storeA "c1" row.date "lunch" = [] → row.lunch = "-") ∧
        (slotEntries storeA "c1" row.date "dinner" = [] → row.dinner = "-")) ∧
    generateDailyInvoiceData storeA "c1" ⟨2026, 3, 6⟩ =
      some ((generateDailyInvoiceData storeA "c1" ⟨2026, 3, 6⟩).getD junkDailyInvoice) ∧
    (((generateDailyInvoiceData storeA "c1" ⟨2026, 3, 6⟩).getD junkDailyInvoice).dateWiseData.length = 1 ∧
      ∀ row ∈ ((generateDailyInvoiceData storeA "c1" ⟨2026, 3, 6⟩).getD junkDailyInvoice).dateWiseData,
        (slotEntries storeA "c1" row.date "breakfast" = [] → row.breakfast = "-") ∧
        (slotEntries storeA "c1" row.date "lunch" = [] → row.lunch = "-") ∧
        (slotEntries storeA "c1" row.date "dinner" = [] → row.dinner = "-")) := by
  have h1 : generateInvoiceData storeA "c1" 2026 3 =
      some ((generateInvoiceData storeA "c1" 2026 3).getD junkInvoice) := by decide
  have h2 : generateDailyInvoiceData storeA "c1" ⟨2026, 3, 6⟩ =
      some ((generateDailyInvoiceData storeA "c1" ⟨2026, 3, 6⟩).getD junkDailyInvoice) := by decide
  exact ⟨h1, invoice_empty_slot_dash.1 storeA "c1" 2026 3 _ h1,
    h2, invoice_empty_slot_dash.2 storeA "c1" ⟨2026, 3, 6⟩ _ h2⟩

/-- Overwriting the non-key fields of an entry does not change whether it
occupies the write's slot. -/
theorem extraMatches_update (w : ExtraWrite) (t : Nat) (e : DailyExtra) :
    extraMatches w
        { e with menuItemId := w.menuItemId, price := w.price,
                 notes := w.notes, updatedAt := t }
      = extraMatches w e := rfl

/-- After an in-place replacement of the first slot occupant, the slot has
exactly one occupant carrying the write's item, price and notes, provided
it had at most one occupant before and at least one exists. -/
theorem replaceFirst_filter (w : ExtraWrite) (t : Nat) :
    ∀ l : List DailyExtra, (l.filter (extraMatches w)).length ≤ 1 →
    l.any (extraMatches w) = true →
    ((replaceFirst w t l).filter (extraMatches w)).length = 1 ∧
    ∀ e ∈ (replaceFirst w t l).filter (extraMatches w),
      e.menuItemId = w.menuItemId ∧ e.price = w.price ∧ e.notes = w.notes := by
  intro l
  induction l with
  | nil => intro _ hany; simp at hany
  | cons a as ih =>
    intro hone hany
    cases ha : extraMatches w a with
    | true =>
      have ha' : extraMatches w
          { a with menuItemId := w.menuItemId, price := w.price,
                   notes := w.notes, updatedAt := t } = true := by
        rw [extraMatches_update]; exact ha
      have hnil : as.filter (extraMatches w) = [] := by
        rw [List.filter_cons_of_pos ha] at hone
        simp only [List.length_cons] at hone
        exact List.length_eq_zero.mp (by omega)
      simp only [replaceFirst, ha, if_true, List.filter_cons_of_pos ha', hnil]
      refine ⟨rfl, ?_⟩
      intro e he
      simp only [List.mem_singleton] at he
      subst he
      exact ⟨rfl, rfl, rfl⟩
    | false =>
      have hany' : as.any (extraMatches w) = true := by
        simpa [ha] using hany
      have hone' : (as.filter (extraMatches w)).length ≤ 1 := by
        rwa [List.filter_cons_of_neg (by simp [ha])] at hone
      have hih := ih hone' hany'
      simp only [replaceFirst, ha]
      rw [if_neg (by decide : ¬ (false = true)),
        List.filter_cons_of_neg (by simp [ha])]
      exact hih

/-- One `upsertExtra` leaves the write's slot with exactly one occupant
carrying the write's item, price and notes, provided the slot held at most
one entry before. -/
theorem upsertExtra_filter (s : Store) (t : Nat) (w : ExtraWrite)
    (hone : (s.extras.filter (extraMatches w)).length ≤ 1) :
    ((upsertExtra s t w).extras.filter (extraMatches w)).length = 1 ∧
    ∀ e ∈ (upsertExtra s t w).extras.filter (extraMatches w),
      e.menuItemId = w.menuItemId ∧ e.price = w.price ∧ e.notes = w.notes := by
  unfold upsertExtra
  by_cases hany : s.extras.any (extraMatches w) = true
  · rw [if_pos hany]
    exact replaceFirst_filter w t s.extras hone hany
  · have hfalse : s.extras.any (extraMatches w) = false := by
      simpa using hany
    have hnil : s.extras.filter (extraMatches w) = [] := by
      rw [List.filter_eq_nil_iff]
      intro e he
      have := List.any_eq_false.mp hfalse e he
      simpa using this
    have hnew : extraMatches w
        { id := s.nextExtraId, customerId := w.customerId, date := w.date,
          mealType := w.mealType, menuItemId := w.menuItemId, price := w.price,
          notes := w.notes, createdAt := t, updatedAt := t } = true := by
      simp [extraMatches]
    rw [if_neg hany]
    dsimp only
    rw [List.filter_append, hnil, List.nil_append,
      List.filter_cons_of_pos hnew, List.filter_nil]
    refine ⟨rfl, ?_⟩
    intro e he
    simp only [List.mem_singleton] at he
    subst he
    exact ⟨rfl, rfl, rfl⟩

/-- The slot occupants of a write's own slot are exactly the entries
matching the write. -/
theorem slotEntries_eq_filter (s : Store) (w : ExtraWrite) :
    slotEntries s w.customerId w.date w.mealType = s.extras.filter (extraMatches w) :=
  rfl

/-- Applying any sequence of writes addressed to one slot preserves the
at-most-one-occupant bound of that slot. -/
theorem applyWrites_slot_le_one (c : String) (d : CalDate) (slot : String) :
    ∀ (ws : List (Nat × ExtraWrite)) (s : Store),
    (∀ p ∈ ws, p.2.customerId = c ∧ p.2.date = d ∧ p.2.mealType = slot) →
    (slotEntries s c d slot).length ≤ 1 →
    (slotEntries (applyWrites s ws) c d slot).length ≤ 1 := by
  intro ws
  induction ws with
  | nil => intro s _ h; simpa [applyWrites] using h
  | cons p ps ih =>
    intro s hws hone
    have hp := hws p (List.mem_cons_self _ _)
    have heq1 : slotEntries s c d slot = s.extras.filter (extraMatches p.2) := by
      rw [← hp.1, ← hp.2.1, ← hp.2.2]; rfl
    have key := upsertExtra_filter s p.1 p.2 (heq1 ▸ hone)
    have heq2 : slotEntries (upsertExtra s p.1 p.2) c d slot =
        (upsertExtra s p.1 p.2).extras.filter (extraMatches p.2) := by
      rw [← hp.1, ← hp.2.1, ← hp.2.2]; rfl
    have hstep : (slotEntries (upsertExtra s p.1 p.2) c d slot).length ≤ 1 := by
      rw [heq2, key.1]
    have : applyWrites s (p :: ps) = applyWrites (upsertExtra s p.1 p.2) ps := rfl
    rw [this]
    exact ih (upsertExtra s p.1 p.2) (fun q hq => hws q (List.mem_cons_of_mem _ hq)) hstep

/-- C2: after any nonempty sequence of admitted extras writes sharing one
(customer, date, meal slot) triple, starting from a store satisfying the
at-most-one-per-slot invariant for that triple, the store holds exactly one
entry for the triple and its menu-item reference, price and notes are those
of the last write; earlier writes are overwritten, never duplicated. -/
theorem extras_single_slot_last_write_wins (s : Store) (c : String) (d : CalDate)
    (slot : String) (ws : List (Nat × ExtraWrite)) (tl : Nat) (wl : ExtraWrite)
    (hws : ∀ p ∈ ws, p.2.customerId = c ∧ p.2.date = d ∧ p.2.mealType = slot)
    (hwl : wl.customerId = c ∧ wl.date = d ∧ wl.mealType = slot)
    (hone : (slotEntries s c d slot).length ≤ 1) :
    (slotEntries (applyWrites s (ws ++ [(tl, wl)])) c d slot).length = 1 ∧
    ∀ e ∈ slotEntries (applyWrites s (ws ++ [(tl, wl)])) c d slot,
      e.menuItemId = wl.menuItemId ∧ e.price = wl.price ∧ e.notes = wl.notes := by
  have happ : applyWrites s (ws ++ [(tl, wl)]) =
      upsertExtra (applyWrites s ws) tl wl := by
    simp [applyWrites, List.foldl_append]
  have hle := applyWrites_slot_le_one c d slot ws s hws hone
  have heq1 : slotEntries (applyWrites s ws) c d slot =
      (applyWrites s ws).extras.filter (extraMatches wl) := by
    rw [← hwl.1, ← hwl.2.1, ← hwl.2.2]; rfl
  have h2 := upsertExtra_filter (applyWrites s ws) tl wl (heq1 ▸ hle)
  have heq2 : slotEntries (upsertExtra (applyWrites s ws) tl wl) c d slot =
      (upsertExtra (applyWrites s ws) tl wl).extras.filter (extraMatches wl) := by
    rw [← hwl.1, ← hwl.2.1, ← hwl.2.2]; rfl
  rw [happ, heq2]
  exact h2

/-- Witness for C2 at the spec's end-to-end scenario: a breakfast extra for
(c1, 2026-01-10) admitted with price 40 and then again with price 45 leaves
exactly one entry, with price 45. -/
theorem extras_single_slot_last_write_wins_witness :
    (∀ p ∈ [((1 : Nat), (⟨"c1", ⟨2026, 0, 10⟩, "breakfast", "m2", 40, ""⟩ : ExtraWrite))],
      p.2.customerId = "c1" ∧ p.2.date = (⟨2026, 0, 10⟩ : CalDate) ∧
        p.2.mealType = "breakfast") ∧
    ((⟨"c1", ⟨2026, 0, 10⟩, "breakfast", "m2", 45, ""⟩ : ExtraWrite).customerId = "c1" ∧
      (⟨"c1", ⟨2026, 0, 10⟩, "breakfast", "m2", 45, ""⟩ : ExtraWrite).date = (⟨2026, 0, 10⟩ : CalDate) ∧
      (⟨"c1", ⟨2026, 0, 10⟩, "breakfast", "m2", 45, ""⟩ : ExtraWrite).mealType = "breakfast") ∧
    (slotEntries emptyStore "c1" ⟨2026, 0, 10⟩ "breakfast").length ≤ 1 ∧
    ((slotEntries (applyWrites emptyStore
        ([((1 : Nat), (⟨"c1", ⟨2026, 0, 10⟩, "breakfast", "m2", 40, ""⟩ : ExtraWrite))] ++
          [((2 : Nat), (⟨"c1", ⟨2026, 0, 10⟩, "breakfast", "m2", 45, ""⟩ : ExtraWrite))]))
        "c1" ⟨2026, 0, 10⟩ "breakfast").length = 1 ∧
      ∀ e ∈ slotEntries (applyWrites emptyStore
        ([((1 : Nat), (⟨"c1", ⟨2026, 0, 10⟩, "breakfast", "m2", 40, ""⟩ : ExtraWrite))] ++
          [((2 : Nat), (⟨"c1", ⟨2026, 0, 10⟩, "breakfast", "m2", 45, ""⟩ : ExtraWrite))]))
        "c1" ⟨2026, 0, 10⟩ "breakfast",
        e.menuItemId = "m2" ∧ e.price = 45 ∧ e.notes = "") := by
  exact ⟨by decide, by decide, by decide,
    extras_single_slot_last_write_wins emptyStore "c1" ⟨2026, 0, 10⟩ "breakfast"
      [((1 : Nat), (⟨"c1", ⟨2026, 0, 10⟩, "breakfast", "m2", 40, ""⟩ : ExtraWrite))]
      2 (⟨"c1", ⟨2026, 0, 10⟩, "breakfast", "m2", 45, ""⟩ : ExtraWrite)
      (by decide) (by decide) (by decide)⟩

/-- Whether a save outcome is the error toast branch. -/
def isErrorToast : SaveOutcome → Bool
  | .errorToast _ => true
  | .saved _ => false

/-- C6: a save request whose price is negative is rejected with a
validation error toast and mutates nothing: the store is exactly what it
was before the call. -/
theorem extras_save_negative_price_rejected (s : Store) (t : Nat) (f : ExtraForm)
    (hneg : f.price < 0) :
    (extrasSave s t f).1 = s ∧ isErrorToast (extrasSave s t f).2 = true := by
  obtain ⟨cid, fdate, fmeal, mid, price, notes⟩ := f
  simp only at hneg
  unfold extrasSave
  rcases fdate with _ | d <;> rcases fmeal with _ | mt
  · exact ⟨rfl, rfl⟩
  · exact ⟨rfl, rfl⟩
  · exact ⟨rfl, rfl⟩
  · simp only
    by_cases hreq : cid = "" ∨ mid = ""
    · rw [if_pos hreq]
      exact ⟨rfl, rfl⟩
    · rw [if_neg hreq, if_pos hneg]
      exact ⟨rfl, rfl⟩

/-- Witness for C6: a fully filled form with price -5 is rejected and the
empty store is unchanged. -/
theorem extras_save_negative_price_rejected_witness :
    ((⟨"c1", some ⟨2026, 0, 10⟩, some "breakfast", "m2", -5, ""⟩ : ExtraForm).price < 0) ∧
    ((extrasSave emptyStore 0
        (⟨"c1", some ⟨2026, 0, 10⟩, some "breakfast", "m2", -5, ""⟩ : ExtraForm)).1 = emptyStore ∧
      isErrorToast (extrasSave emptyStore 0
        (⟨"c1", some ⟨2026, 0, 10⟩, some "breakfast", "m2", -5, ""⟩ : ExtraForm)).2 = true) := by
  refine ⟨by norm_num, extras_save_negative_price_rejected emptyStore 0 _ (by norm_num)⟩

/-- A formatted extra display is never the empty string: it always contains
the `" – ₹"` separator. -/
theorem formatExtraDisplay_length_pos (e : DailyExtra) (mi : Option MenuItem) :
    0 < (formatExtraDisplay e mi).length := by
  have h4 : (" – ₹" : String).length = 4 := rfl
  unfold formatExtraDisplay
  rcases mi with _ | mitem <;> dsimp only <;> split <;>
    simp only [String.length_append] <;> omega

/-- Joining at least one formatted extra with `<br>` never yields the empty
string. -/
theorem jsJoin_formatted_ne_empty (s : Store) (l : List DailyExtra)
    (hne : l ≠ []) :
    jsJoin "<br>" (l.map fun e => formatExtraDisplay e (findMenuItem s e.menuItemId)) ≠ "" := by
  cases l with
  | nil => exact absurd rfl hne
  | cons a as =>
    cases as with
    | nil =>
      dsimp [jsJoin]
      intro h
      have hpos := formatExtraDisplay_length_pos a (findMenuItem s a.menuItemId)
      rw [h] at hpos
      exact absurd hpos (by decide)
    | cons b bs =>
      dsimp [jsJoin]
      intro h
      have hlen := congrArg String.length h
      rw [String.length_append, String.length_append] at hlen
      have h4 : ("<br>" : String).length = 4 := rfl
      have hz : ("" : String).length = 0 := rfl
      omega

/-- A monthly cell with at least one match is the `<br>`-join of all the
formatted matches. -/
theorem slotCell_of_ne_empty (s : Store) (l : List DailyExtra) (hne : l ≠ []) :
    slotCell s l =
      jsJoin "<br>" (l.map fun e => formatExtraDisplay e (findMenuItem s e.menuItemId)) := by
  unfold slotCell
  rw [if_pos (List.length_pos.mpr hne)]

/-- A daily cell with at least one match is the `<br>`-join of all the
formatted matches. -/
theorem dailySlotCell_of_ne_empty (s : Store) (l : List DailyExtra) (hne : l ≠ []) :
    dailySlotCell s l =
      jsJoin "<br>" (l.map fun e => formatExtraDisplay e (findMenuItem s e.menuItemId)) := by
  unfold dailySlotCell
  rw [if_neg (jsJoin_formatted_ne_empty s l hne)]

/-- Price sum of a cons. -/
theorem sumPrices_cons (e : DailyExtra) (l : List DailyExtra) :
    sumPrices (e :: l) = e.price + sumPrices l := by
  simp [sumPrices]

/-- Price sums split over a filter by a disjunction of pointwise disjoint
predicates. -/
theorem sumPrices_filter_or (p q : DailyExtra → Bool) (l : List DailyExtra)
    (hd : ∀ e ∈ l, ¬(p e = true ∧ q e = true)) :
    sumPrices (l.filter fun e => p e || q e) =
      sumPrices (l.filter p) + sumPrices (l.filter q) := by
  induction l with
  | nil => simp [sumPrices]
  | cons a l ih =>
    have hd' : ∀ e ∈ l, ¬(p e = true ∧ q e = true) :=
      fun e he => hd e (List.mem_cons_of_mem _ he)
    have hda := hd a (List.mem_cons_self _ _)
    cases hp : p a with
    | false =>
      cases hq : q a with
      | false =>
        rw [List.filter_cons_of_neg (by simp [hp, hq]),
          List.filter_cons_of_neg (by simp [hp]),
          List.filter_cons_of_neg (by simp [hq])]
        exact ih hd'
      | true =>
        rw [List.filter_cons_of_pos (by simp [hp, hq]),
          List.filter_cons_of_neg (by simp [hp]),
          List.filter_cons_of_pos hq, sumPrices_cons, sumPrices_cons, ih hd']
        ring
    | true =>
      cases hq : q a with
      | false =>
        rw [List.filter_cons_of_pos (by simp [hp, hq]),
          List.filter_cons_of_pos hp,
          List.filter_cons_of_neg (by simp [hq]), sumPrices_cons, sumPrices_cons,
          ih hd']
        ring
      | true => exact absurd ⟨hp, hq⟩ hda

/-- Structural characterisation of calendar-date equality. -/
theorem calDate_eq_mk_iff (c : CalDate) (y : Int) (m d : Nat) :
    c = ⟨y, m, d⟩ ↔ c.year = y ∧ c.month = m ∧ c.day = d := by
  cases c
  simp [CalDate.mk.injEq]

/-- The per-day accumulation of a month's slot matches over days
`1..N` equals one sum over all entries with a day in `1..N` in that slot,
for a list whose entries all lie in the target (year, month): every
matching entry is counted once, duplicates included. -/
theorem sum_dayMatches_range (l : List DailyExtra) (y : Int) (m : Nat)
    (slot : String) (hl : ∀ e ∈ l, e.date.year = y ∧ e.date.month = m) :
    ∀ N : Nat,
      (((List.range N).map (· + 1)).map
          fun d => sumPrices (dayMatches l ⟨y, m, d⟩ slot)).sum
        = sumPrices (l.filter fun e =>
            1 ≤ e.date.day ∧ e.date.day ≤ N ∧ e.mealType = slot) := by
  intro N
  induction N with
  | zero =>
    have hnil : (l.filter fun e =>
        1 ≤ e.date.day ∧ e.date.day ≤ 0 ∧ e.mealType = slot) = [] := by
      rw [List.filter_eq_nil_iff]
      intro e _
      simp only [decide_eq_true_eq]
      rintro ⟨h1, h2, _⟩
      omega
    rw [hnil]
    simp [sumPrices]
  | succ n ih =>
    rw [List.range_succ, List.map_append, List.map_append, List.sum_append, ih]
    have hlast : (List.map (fun d => sumPrices (dayMatches l ⟨y, m, d⟩ slot))
        (List.map (· + 1) [n])).sum = sumPrices (dayMatches l ⟨y, m, n + 1⟩ slot) := by
      simp
    rw [hlast]
    have hcong : (l.filter fun e =>
          1 ≤ e.date.day ∧ e.date.day ≤ n + 1 ∧ e.mealType = slot)
        = l.filter fun e =>
            (decide (1 ≤ e.date.day ∧ e.date.day ≤ n ∧ e.mealType = slot)) ||
            (decide (e.date = (⟨y, m, n + 1⟩ : CalDate) ∧ e.mealType = slot)) := by
      apply List.filter_congr
      intro e he
      have hy := (hl e he).1
      have hm := (hl e he).2
      have hiff : (1 ≤ e.date.day ∧ e.date.day ≤ n + 1 ∧ e.mealType = slot) ↔
          ((1 ≤ e.date.day ∧ e.date.day ≤ n ∧ e.mealType = slot) ∨
            (e.date = (⟨y, m, n + 1⟩ : CalDate) ∧ e.mealType = slot)) := by
        rw [calDate_eq_mk_iff]
        constructor
        · rintro ⟨h1, h2, h3⟩
          rcases Nat.lt_or_ge e.date.day (n + 1) with hlt | hge
          · exact Or.inl ⟨h1, by omega, h3⟩
          · exact Or.inr ⟨⟨hy, hm, by omega⟩, h3⟩
        · rintro (⟨h1, h2, h3⟩ | ⟨⟨_, _, hd⟩, h3⟩)
          · exact ⟨h1, by omega, h3⟩
          · exact ⟨by omega, by omega, h3⟩
      rw [show (decide (1 ≤ e.date.day ∧ e.date.day ≤ n + 1 ∧ e.mealType = slot))
          = decide ((1 ≤ e.date.day ∧ e.date.day ≤ n ∧ e.mealType = slot) ∨
            (e.date = (⟨y, m, n + 1⟩ : CalDate) ∧ e.mealType = slot))
          from decide_eq_decide.mpr hiff]
      simp
    have hdisj : ∀ e ∈ l,
        ¬((decide (1 ≤ e.date.day ∧ e.date.day ≤ n ∧ e.mealType = slot)) = true ∧
          (decide (e.date = (⟨y, m, n + 1⟩ : CalDate) ∧ e.mealType = slot)) = true) := by
      intro e _
      simp only [decide_eq_true_eq, calDate_eq_mk_iff]
      rintro ⟨⟨_, h2, _⟩, ⟨⟨_, _, hd⟩, _⟩⟩
      omega
    rw [hcong, sumPrices_filter_or _ _ l hdisj]
    rfl

/-- C10: the generators perform no per-slot deduplication: every stored
entry matching a (customer, day-in-month, slot) is summed into that slot's
total (duplicates included), and every cell with at least one match joins
all the formatted matches with `<br>`. -/
theorem invoice_duplicate_slot_entries_summed :
    (∀ (s : Store) (cid : String) (y : Int) (m : Nat) (inv : InvoiceData),
      generateInvoiceData s cid y m = some inv →
      (inv.summary.breakfastTotal = sumPrices
          ((getExtrasByCustomerAndMonth s cid y m).filter fun e =>
            1 ≤ e.date.day ∧ e.date.day ≤ daysInMonth y m ∧ e.mealType = "breakfast") ∧
        inv.summary.lunchTotal = sumPrices
          ((getExtrasByCustomerAndMonth s cid y m).filter fun e =>
            1 ≤ e.date.day ∧ e.date.day ≤ daysInMonth y m ∧ e.mealType = "lunch") ∧
        inv.summary.dinnerTotal = sumPrices
          ((getExtrasByCustomerAndMonth s cid y m).filter fun e =>
            1 ≤ e.date.day ∧ e.date.day ≤ daysInMonth y m ∧ e.mealType = "dinner")) ∧
      ∀ row ∈ inv.dateWiseData,
        (dayMatches (getExtrasByCustomerAndMonth s cid y m) row.date "breakfast" ≠ [] →
          row.breakfast = jsJoin "<br>"
            ((dayMatches (getExtrasByCustomerAndMonth s cid y m) row.date "breakfast").map
              fun e => formatExtraDisplay e (findMenuItem s e.menuItemId))) ∧
        (dayMatches (getExtrasByCustomerAndMonth s cid y m) row.date "lunch" ≠ [] →
          row.lunch = jsJoin "<br>"
            ((dayMatches (getExtrasByCustomerAndMonth s cid y m) row.date "lunch").map
              fun e => formatExtraDisplay e (findMenuItem s e.menuItemId))) ∧
        (dayMatches (getExtrasByCustomerAndMonth s cid y m) row.date "dinner" ≠ [] →
          row.dinner = jsJoin "<br>"
            ((dayMatches (getExtrasByCustomerAndMonth s cid y m) row.date "dinner").map
              fun e => formatExtraDisplay e (findMenuItem s e.menuItemId)))) ∧
    (∀ (s : Store) (cid : String) (d : CalDate) (inv : DailyInvoiceData),
      generateDailyInvoiceData s cid d = some inv →
      (inv.summary.breakfastTotal = sumPrices
          (((getExtrasByDate s d).filter fun e => e.customerId = cid).filter
            fun e => e.mealType = "breakfast") ∧
        inv.summary.lunchTotal = sumPrices
          (((getExtrasByDate s d).filter fun e => e.customerId = cid).filter
            fun e => e.mealType = "lunch") ∧
        inv.summary.dinnerTotal = sumPrices
          (((getExtrasByDate s d).filter fun e => e.customerId = cid).filter
            fun e => e.mealType = "dinner")) ∧
      ∀ row ∈ inv.dateWiseData,
        ((((getExtrasByDate s d).filter fun e => e.customerId = cid).filter
            fun e => e.mealType = "breakfast") ≠ [] →
          row.breakfast = jsJoin "<br>"
            ((((getExtrasByDate s d).filter fun e => e.customerId = cid).filter
              fun e => e.mealType = "breakfast").map
              fun e => formatExtraDisplay e (findMenuItem s e.menuItemId))) ∧
        ((((getExtrasByDate s d).filter fun e => e.customerId = cid).filter
            fun e => e.mealType = "lunch") ≠ [] →
          row.lunch = jsJoin "<br>"
            ((((getExtrasByDate s d).filter fun e => e.customerId = cid).filter
              fun e => e.mealType = "lunch").map
              fun e => formatExtraDisplay e (findMenuItem s e.menuItemId))) ∧
        ((((getExtrasByDate s d).filter fun e => e.customerId = cid).filter
            fun e => e.mealType = "dinner") ≠ [] →
          row.dinner = jsJoin "<br>"
            ((((getExtrasByDate s d).filter fun e => e.customerId = cid).filter
              fun e => e.mealType = "dinner").map
              fun e => formatExtraDisplay e (findMenuItem s e.menuItemId)))) := by
  constructor
  · intro s cid y m inv h
    rcases hc : getCustomer s cid with _ | c
    · simp only [generateInvoiceData, hc] at h
      exact Option.noConfusion h
    · simp only [generateInvoiceData, hc, Option.some.injEq] at h
      subst h
      have hl : ∀ e ∈ getExtrasByCustomerAndMonth s cid y m,
          e.date.year = y ∧ e.date.month = m := by
        intro e he
        simp only [getExtrasByCustomerAndMonth, getExtrasByCustomer,
          List.mem_filter, decide_eq_true_eq] at he
        exact he.2
      refine ⟨⟨?_, ?_, ?_⟩, ?_⟩
      · exact sum_dayMatches_range _ y m "breakfast" hl (daysInMonth y m)
      · exact sum_dayMatches_range _ y m "lunch" hl (daysInMonth y m)
      · exact sum_dayMatches_range _ y m "dinner" hl (daysInMonth y m)
      · intro row hrow
        simp only [List.mem_map] at hrow
        obtain ⟨d, _, hrow⟩ := hrow
        subst hrow
        exact ⟨fun hne => slotCell_of_ne_empty s _ hne,
          fun hne => slotCell_of_ne_empty s _ hne,
          fun hne => slotCell_of_ne_empty s _ hne⟩
  · intro s cid d inv h
    rcases hc : getCustomer s cid with _ | c
    · simp only [generateDailyInvoiceData, hc] at h
      exact Option.noConfusion h
    · simp only [generateDailyInvoiceData, hc, Option.some.injEq] at h
      subst h
      refine ⟨⟨rfl, rfl, rfl⟩, ?_⟩
      intro row hrow
      simp only [List.mem_singleton] at hrow
      subst hrow
      exact ⟨fun hne => dailySlotCell_of_ne_empty s _ hne,
        fun hne => dailySlotCell_of_ne_empty s _ hne,
        fun hne => dailySlotCell_of_ne_empty s _ hne⟩

/-- Store holding two DailyExtra entries for the same
(customer, date, meal slot) triple, as a caller bypassing the admission
rule could produce. -/
def storeB : Store :=
  { customers := [⟨"c1", "A", "daily", 300, "active"⟩]
    menuItems := [⟨"m1", "Chai", "breakfast", 10, true⟩]
    extras := [⟨1, "c1", ⟨2026, 3, 5⟩, "breakfast", "m1", 10, "", 0, 0⟩,
               ⟨2, "c1", ⟨2026, 3, 5⟩, "breakfast", "m1", 20, "", 0, 0⟩]
    advances := []
    nextExtraId := 3 }

set_option maxRecDepth 16000 in
unseal Rat.add Rat.mul Rat.sub in
/-- Witness for C10 on a store with two breakfast entries for one slot:
both generators count both entries in the breakfast total. -/
theorem invoice_duplicate_slot_entries_summed_witness :
    generateInvoiceData storeB "c1" 2026 3 =
      some ((generateInvoiceData storeB "c1" 2026 3).getD junkInvoice) ∧
    ((generateInvoiceData storeB "c1" 2026 3).getD junkInvoice).summary.breakfastTotal =
      sumPrices ((getExtrasByCustomerAndMonth storeB "c1" 2026 3).filter fun e =>
        1 ≤ e.date.day ∧ e.date.day ≤ daysInMonth 2026 3 ∧ e.mealType = "breakfast") ∧
    generateDailyInvoiceData storeB "c1" ⟨2026, 3, 5⟩ =
      some ((generateDailyInvoiceData storeB "c1" ⟨2026, 3, 5⟩).getD junkDailyInvoice) ∧
    ((generateDailyInvoiceData storeB "c1" ⟨2026, 3, 5⟩).getD junkDailyInvoice).summary.breakfastTotal =
      sumPrices (((getExtrasByDate storeB ⟨2026, 3, 5⟩).filter fun e =>
        e.customerId = "c1").filter fun e => e.mealType = "breakfast") := by
  have h1 : generateInvoiceData storeB "c1" 2026 3 =
      some ((generateInvoiceData storeB "c1" 2026 3).getD junkInvoice) := by decide
  have h2 : generateDailyInvoiceData storeB "c1" ⟨2026, 3, 5⟩ =
      some ((generateDailyInvoiceData storeB "c1" ⟨2026, 3, 5⟩).getD junkDailyInvoice) := by decide
  exact ⟨h1, (invoice_duplicate_slot_entries_summed.1 storeB "c1" 2026 3 _ h1).1.1,
    h2, (invoice_duplicate_slot_entries_summed.2 storeB "c1" ⟨2026, 3, 5⟩ _ h2).1.1⟩

/-- C5: for a customerId matching no stored customer, the gateway lookup
reports not-found and both invoice generators return the explicit
not-found result (`none`, the `return null` of src/js/database.js lines
272-273 and 349-350) instead of failing; callers can check the result
before use. -/
theorem invoice_unknown_customer_returns_none (s : Store) (cid : String)
    (y : Int) (m : Nat) (d : CalDate)
    (habsent : ∀ c ∈ s.customers, c.id ≠ cid) :
    getCustomer s cid = none ∧
    generateInvoiceData s cid y m = none ∧
    generateDailyInvoiceData s cid d = none := by
  have hc : getCustomer s cid = none := by
    unfold getCustomer
    rw [List.find?_eq_none]
    intro c hcmem
    simpa using habsent c hcmem
  refine ⟨hc, ?_, ?_⟩
  · simp [generateInvoiceData, hc]
  · simp [generateDailyInvoiceData, hc]

/-- Witness for C5 at a store with no customers. -/
theorem invoice_unknown_customer_returns_none_witness :
    (∀ c ∈ emptyStore.customers, c.id ≠ "c9") ∧
    (getCustomer emptyStore "c9" = none ∧
      generateInvoiceData emptyStore "c9" 2026 0 = none ∧
      generateDailyInvoiceData emptyStore "c9" ⟨2026, 0, 5⟩ = none) :=
  ⟨by decide,
    invoice_unknown_customer_returns_none emptyStore "c9" 2026 0 ⟨2026, 0, 5⟩ (by decide)⟩
